import Mathlib

/-!
# credmanager: first-valid credential resolution

A shallow embedding of the Go packages `types`, `sources`, `sources/static`,
`sources/dynamic` and of `manager.go`, followed by theorems about them.

Conventions of the embedding:

* a Go pointer result `*types.Credential` is an `Option Credential` (`none` is `nil`);
* a Go `error` result is an `Option Error` (`none` is `nil`);
* a Go `int` is an `Int`; no arithmetic is performed on it in this code;
* a Go `map[string]string` literal is the list of its entries, in the order of the literal;
* `time.Time` is an `Int` counting nanoseconds, `time.Duration` likewise;
* an interface method with side effects is a function threading a world state `W`.
-/

namespace Credmanager

/-! ## Errors and contexts -/

/-- Go `error` values that occur in the package: `errors.New msg`,
`fmt.Errorf (pfx ++ ": %w") inner`, and the two sentinel errors of package `context`. -/
inductive Error where
  | New (msg : String)
  | Errorf (pfx : String) (inner : Error)
  | Canceled
  | DeadlineExceeded
  deriving DecidableEq, Repr

/-- The string returned by the `Error()` method of an error. -/
def Error.message : Error → String
  | .New msg => msg
  | .Errorf pfx inner => pfx ++ ": " ++ inner.message
  | .Canceled => "context canceled"
  | .DeadlineExceeded => "context deadline exceeded"

/-- Whether an error is, or wraps, `context.Canceled` or `context.DeadlineExceeded`. -/
def Error.isCancellation : Error → Bool
  | .New _ => false
  | .Errorf _ inner => inner.isCancellation
  | .Canceled => true
  | .DeadlineExceeded => true

/-- A `context.Context`, reduced to what `ctx.Err()` reports: `none` while the context is live,
`some Canceled` or `some DeadlineExceeded` once it is done. -/
structure Context where
  Err : Option Error
  deriving DecidableEq, Repr

/-- The live context `context.Background()`. -/
def Context.Background : Context := ⟨none⟩

/-- A context whose `cancel` function has already been called. -/
def Context.cancelled : Context := ⟨some Error.Canceled⟩

/-- A context whose deadline has already passed. -/
def Context.expired : Context := ⟨some Error.DeadlineExceeded⟩

/-! ## `types/type.go` -/

/-- Instants and durations, in nanoseconds. -/
abbrev Time := Int

/-- The Go struct `types.Credential`. -/
structure Credential where
  Key : String
  Value : String
  Expiry : Option Time
  Metadata : List (String × String)
  deriving DecidableEq, Repr

/-- Map lookup `m[k]` with the presence flag: the value of the first entry with key `k`. -/
def lookup (m : List (String × String)) (k : String) : Option String :=
  (m.find? (fun e => e.1 == k)).map Prod.snd

/-! ## `sources/source.go` -/

/-- The pair `(*types.Credential, error)` returned by `GetCredentials`. -/
abbrev Result := Option Credential × Option Error

/-- The interface `sources.CredentialSource`. `GetCredentials` may read and change the
world `W` (clock, network, counters of a spy, ...). -/
structure CredentialSource (W : Type) where
  GetCredentials : Context → W → Result × W
  Name : String

/-! ## `manager.go` -/

/-- The struct `CredentialManager`; the mutex field has no sequential content. -/
structure CredentialManager (W : Type) where
  sources : List (CredentialSource W)

/-- `NewManager`. -/
def NewManager {W : Type} (srcs : List (CredentialSource W)) : CredentialManager W :=
  { sources := srcs }

/-- What one call of `GetFirstValid` produces: the returned pair `(creds, err)`, the indices of
the sources whose `GetCredentials` was invoked (in order of invocation), the lines printed
(source name and error of each `fmt.Printf`), and the world it leaves. -/
structure Outcome (W : Type) where
  creds : Option Credential
  err : Option Error
  calls : List Nat
  log : List (String × Error)
  world : W

/-- The error returned by `GetFirstValid` when the loop runs to its end. -/
def ErrNoValidSource : Error := Error.New "no valid credential sources found"

/-- The `for _, src := range m.sources` loop of `GetFirstValid`, from the source at position
`idx` on: `rest` are the sources still to visit. -/
def GetFirstValid.loop {W : Type} (ctx : Context) :
    List (CredentialSource W) → Nat → W → List Nat → List (String × Error) → Outcome W
  | [], _, w, calls, log =>
      { creds := none, err := some ErrNoValidSource, calls := calls, log := log, world := w }
  | src :: rest, idx, w, calls, log =>
      match src.GetCredentials ctx w with
      | ((creds, none), w1) =>
          { creds := creds, err := none, calls := calls ++ [idx], log := log, world := w1 }
      | ((_, some err), w1) =>
          GetFirstValid.loop ctx rest (idx + 1) w1 (calls ++ [idx]) (log ++ [(src.Name, err)])

/-- `CredentialManager.GetFirstValid`. -/
def CredentialManager.GetFirstValid {W : Type} (m : CredentialManager W) (ctx : Context)
    (w : W) : Outcome W :=
  GetFirstValid.loop ctx m.sources 0 w [] []

/-- The world in which the source at position `j` is invoked, when the sources of the list are
invoked one after the other starting from `w`: the world left by the sources before `j`. -/
def worldBefore {W : Type} (ctx : Context) : List (CredentialSource W) → W → Nat → W
  | [], w, _ => w
  | _ :: _, w, 0 => w
  | src :: rest, w, j + 1 => worldBefore ctx rest (src.GetCredentials ctx w).2 j

/-- The pair returned by the source at position `j` when it is invoked after the sources
before it; `none` when the list has no position `j`. -/
def resultAt {W : Type} (ctx : Context) (srcs : List (CredentialSource W)) (w : W) (j : Nat) :
    Option Result :=
  srcs[j]?.map (fun src => (src.GetCredentials ctx (worldBefore ctx srcs w j)).1)

/-! ## `sources/static/rds.go` -/

/-- Rendering of an `int` by the verb `%d` of `fmt.Sprintf`: decimal digits, with a leading
minus sign when negative. -/
def fmtD (n : Int) : String :=
  if n < 0 then "-" ++ Nat.repr (-n).toNat else Nat.repr n.toNat

/-- The struct `static.RDSPostgresSource`. -/
structure RDSPostgresSource where
  Host : String
  Port : Int
  Username : String
  Password : String
  Database : String
  deriving DecidableEq, Repr

/-- `static.NewRDSPostgresSource`. -/
def NewRDSPostgresSource (host : String) (port : Int) (user pass db : String) :
    RDSPostgresSource :=
  { Host := host, Port := port, Username := user, Password := pass, Database := db }

/-- `(*RDSPostgresSource).GetCredentials`: the context is not consulted. -/
def RDSPostgresSource.GetCredentials (r : RDSPostgresSource) (_ctx : Context) : Result :=
  (some
    { Key := "rds_postgres"
      Value := r.Password
      Expiry := none
      Metadata :=
        [ ("host", r.Host),
          ("port", fmtD r.Port),
          ("username", r.Username),
          ("database", r.Database),
          ("type", "static"),
          ("service", "rds_postgres") ] },
   none)

/-- `(*RDSPostgresSource).Name`. -/
def RDSPostgresSource.Name (_r : RDSPostgresSource) : String := "static_rds_postgres"

/-- A static source seen through the interface `CredentialSource`; it leaves the world as it
is. -/
def RDSPostgresSource.toSource {W : Type} (r : RDSPostgresSource) : CredentialSource W :=
  { GetCredentials := fun ctx w => (r.GetCredentials ctx, w), Name := r.Name }

/-! ## `sources/dynamic/rds.go` -/

/-- The process environment: `none` for a variable that is not set. -/
abbrev Environ := String → Option String

/-- `os.Getenv`: the value of the variable, or the empty string when it is not set. -/
def Getenv (env : Environ) (key : String) : String := (env key).getD ""

/-- The struct `dynamic.DynamicRDSSource`. -/
structure DynamicRDSSource where
  Host : String
  Port : Int
  Username : String
  Database : String
  Region : String
  deriving DecidableEq, Repr

/-- `dynamic.NewDynamicRDSSource`. The environment read by `os.Getenv` is `env`; `atoi` stands
for `strconv.Atoi`, with `none` for a non-nil error. -/
def NewDynamicRDSSource (env : Environ) (atoi : String → Option Int)
    (host : String) (port : Int) (user db region : String) : DynamicRDSSource :=
  let host := if host = "" then Getenv env "DB_HOST" else host
  let port :=
    if port = 0 then
      let portStr := Getenv env "DB_PORT"
      let port :=
        if portStr ≠ "" then
          match atoi portStr with
          | some p => p
          | none => port
        else port
      if port = 0 then 5432 else port
    else port
  let user := if user = "" then Getenv env "DB_USER" else user
  let db := if db = "" then Getenv env "DB_NAME" else db
  let region :=
    if region = "" then
      let region := Getenv env "AWS_REGION"
      if region = "" then "us-west-2" else region
    else region
  { Host := host, Port := port, Username := user, Database := db, Region := region }

/-- The value of a non-empty run of decimal digits; `none` for the empty run and for a run with
another character in it. -/
def parseDigits : List Char → Option Nat
  | [] => none
  | cs => cs.foldl (fun acc c =>
      match acc with
      | none => none
      | some n => if c.isDigit then some (10 * n + (c.toNat - 48)) else none) (some 0)

/-- A model of `strconv.Atoi` on a 64-bit platform: an optional sign, then decimal digits only,
the value within the range of `int`; `none` for a non-nil error. -/
def Atoi (s : String) : Option Int :=
  let parsed : Option Int :=
    match s.toList with
    | '-' :: ds => (parseDigits ds).map (fun n => -(n : Int))
    | '+' :: ds => (parseDigits ds).map (fun n => (n : Int))
    | ds => (parseDigits ds).map (fun n => (n : Int))
  match parsed with
  | some v => if -(2 ^ 63 : Int) ≤ v ∧ v < 2 ^ 63 then some v else none
  | none => none

/-- An AWS session, reduced to the ambient identity it carries (`sess.Config.Credentials`). -/
structure Session where
  Credentials : String
  deriving DecidableEq, Repr

/-- What the dynamic source reads from outside the program: the clock, the AWS SDK calls and
the rendering of an instant in the layout `time.RFC3339`. -/
structure World where
  Now : Time
  NewSessionWithOptions : Except Error Session
  BuildAuthToken : String → String → String → String → Except Error String
  FormatRFC3339 : Time → String

/-- The duration `time.Minute`, in nanoseconds. -/
def Minute : Int := 60 * 1000000000

/-- `(*DynamicRDSSource).GetCredentials`: the context is not consulted. -/
def DynamicRDSSource.GetCredentials (d : DynamicRDSSource) (_ctx : Context) (w : World) :
    Result :=
  match w.NewSessionWithOptions with
  | .error err => (none, some (Error.Errorf "failed to create AWS session" err))
  | .ok sess =>
    let dbEndpoint := d.Host ++ ":" ++ fmtD d.Port
    match w.BuildAuthToken dbEndpoint d.Region d.Username sess.Credentials with
    | .error err => (none, some (Error.Errorf "failed to generate RDS auth token" err))
    | .ok authToken =>
      let expiry := w.Now + 15 * Minute
      (some
        { Key := "dynamic_rds_postgres"
          Value := authToken
          Expiry := some expiry
          Metadata :=
            [ ("host", d.Host),
              ("port", fmtD d.Port),
              ("username", d.Username),
              ("database", d.Database),
              ("region", d.Region),
              ("type", "dynamic"),
              ("service", "rds_postgres"),
              ("auth_method", "iam_token"),
              ("expires_at", w.FormatRFC3339 expiry),
              ("endpoint", dbEndpoint) ] },
       none)

/-- `(*DynamicRDSSource).Name`. -/
def DynamicRDSSource.Name (_d : DynamicRDSSource) : String := "dynamic_rds_postgres"

/-- `(*DynamicRDSSource).IsTokenExpired`, for a non-nil credential; `w.Now` is `time.Now()`. -/
def DynamicRDSSource.IsTokenExpired (_d : DynamicRDSSource) (w : World) (cred : Credential) :
    Bool :=
  match cred.Expiry with
  | none => false
  | some expiry => decide (expiry < w.Now)

/-- `(*DynamicRDSSource).RefreshCredentials`. -/
def DynamicRDSSource.RefreshCredentials (d : DynamicRDSSource) (ctx : Context) (w : World) :
    Result :=
  d.GetCredentials ctx w

/-- A dynamic source seen through the interface `CredentialSource`; it reads the world and
leaves it as it is. -/
def DynamicRDSSource.toSource (d : DynamicRDSSource) : CredentialSource World :=
  { GetCredentials := fun ctx w => (d.GetCredentials ctx w, w), Name := d.Name }

/-! ## Sample inputs -/

/-- The static source of the fallback scenario. -/
def sampleStatic : RDSPostgresSource := NewRDSPostgresSource "localhost" 5432 "u" "p" "d"

/-- The credential of `sampleStatic`. -/
def sampleStaticCredential : Credential :=
  { Key := "rds_postgres"
    Value := "p"
    Expiry := none
    Metadata :=
      [ ("host", "localhost"), ("port", "5432"), ("username", "u"), ("database", "d"),
        ("type", "static"), ("service", "rds_postgres") ] }

/-- A dynamic source built from sentinel arguments in an empty environment. -/
def sampleDynamic : DynamicRDSSource :=
  NewDynamicRDSSource (fun _ => none) Atoi "" 0 "" "" ""

/-- A world in which no AWS session can be created. -/
def offlineWorld : World :=
  { Now := 1700000000000000000
    NewSessionWithOptions := .error (Error.New "no credential providers")
    BuildAuthToken := fun _ _ _ _ => .error (Error.New "unreachable")
    FormatRFC3339 := fun t => fmtD t }

/-- A world in which session creation and token signing succeed. -/
def onlineWorld : World :=
  { Now := 1700000000000000000
    NewSessionWithOptions := .ok { Credentials := "role" }
    BuildAuthToken := fun endpoint _ user _ => .ok (endpoint ++ "/?DBUser=" ++ user)
    FormatRFC3339 := fun t => fmtD t }

/-- A source that honours its context: it fails with `ctx.Err()` when the context is done, and
with an ordinary error otherwise. -/
def contextAwareSource {W : Type} : CredentialSource W :=
  { GetCredentials := fun ctx w =>
      match ctx.Err with
      | some e => ((none, some e), w)
      | none => ((none, some (Error.New "source unavailable")), w)
    Name := "context_aware" }

end Credmanager

namespace Credmanager

/-! ## The loop of `GetFirstValid` -/

section Loop

variable {W : Type}

theorem resultAt_nil (ctx : Context) (w : W) (j : Nat) :
    resultAt ctx ([] : List (CredentialSource W)) w j = none := by
  simp [resultAt]

theorem resultAt_cons_zero (ctx : Context) (src : CredentialSource W)
    (rest : List (CredentialSource W)) (w : W) :
    resultAt ctx (src :: rest) w 0 = some (src.GetCredentials ctx w).1 := by
  simp [resultAt, worldBefore]

theorem resultAt_cons_succ (ctx : Context) (src : CredentialSource W)
    (rest : List (CredentialSource W)) (w : W) (j : Nat) :
    resultAt ctx (src :: rest) w (j + 1) = resultAt ctx rest (src.GetCredentials ctx w).2 j := by
  simp [resultAt, worldBefore]

theorem loop_cons_ok (ctx : Context) (src : CredentialSource W)
    (rest : List (CredentialSource W)) (idx : Nat) (w : W) (calls : List Nat)
    (log : List (String × Error)) (c : Option Credential)
    (h : (src.GetCredentials ctx w).1 = (c, none)) :
    GetFirstValid.loop ctx (src :: rest) idx w calls log =
      { creds := c, err := none, calls := calls ++ [idx], log := log,
        world := (src.GetCredentials ctx w).2 } := by
  rcases hs : src.GetCredentials ctx w with ⟨⟨cr, e⟩, w1⟩
  rw [hs] at h
  simp only [Prod.mk.injEq] at h
  obtain ⟨h1, h2⟩ := h
  subst h1 h2
  simp [GetFirstValid.loop, hs]

theorem loop_cons_fail (ctx : Context) (src : CredentialSource W)
    (rest : List (CredentialSource W)) (idx : Nat) (w : W) (calls : List Nat)
    (log : List (String × Error)) (r : Option Credential) (e : Error)
    (h : (src.GetCredentials ctx w).1 = (r, some e)) :
    GetFirstValid.loop ctx (src :: rest) idx w calls log =
      GetFirstValid.loop ctx rest (idx + 1) (src.GetCredentials ctx w).2 (calls ++ [idx])
        (log ++ [(src.Name, e)]) := by
  rcases hs : src.GetCredentials ctx w with ⟨⟨cr, e1⟩, w1⟩
  rw [hs] at h
  simp only [Prod.mk.injEq] at h
  obtain ⟨h1, h2⟩ := h
  subst h1 h2
  simp [GetFirstValid.loop, hs]

theorem range_shift (idx k : Nat) (calls : List Nat) :
    (calls ++ [idx]) ++ (List.range k).map (fun j => idx + 1 + j) =
      calls ++ (List.range (k + 1)).map (fun j => idx + j) := by
  rw [List.range_succ_eq_map]
  simp only [List.map_cons, List.map_map, List.append_assoc, List.singleton_append,
    Nat.add_zero]
  congr 2
  apply List.map_congr_left
  intro j _
  simp only [Function.comp_apply]
  omega

/-- While the sources before position `k` all fail, the loop reaches position `k` having
invoked exactly the sources `0, ..., k - 1`. -/
theorem loop_skip (ctx : Context) :
    ∀ (srcs : List (CredentialSource W)) (k idx : Nat) (w : W) (calls : List Nat)
      (log : List (String × Error)),
      (∀ j, j < k → ∃ r e, resultAt ctx srcs w j = some (r, some e)) →
      ∃ log1, GetFirstValid.loop ctx srcs idx w calls log =
        GetFirstValid.loop ctx (srcs.drop k) (idx + k) (worldBefore ctx srcs w k)
          (calls ++ (List.range k).map (fun j => idx + j)) log1 := by
  intro srcs
  induction srcs with
  | nil =>
    intro k idx w calls log hfail
    cases k with
    | zero => exact ⟨log, by simp [worldBefore]⟩
    | succ k =>
      obtain ⟨r, e, h⟩ := hfail 0 (Nat.succ_pos k)
      simp [resultAt_nil] at h
  | cons src rest ih =>
    intro k idx w calls log hfail
    cases k with
    | zero => exact ⟨log, by simp [worldBefore]⟩
    | succ k =>
      obtain ⟨r, e, h⟩ := hfail 0 (Nat.succ_pos k)
      rw [resultAt_cons_zero] at h
      have h0 : (src.GetCredentials ctx w).1 = (r, some e) := Option.some.inj h
      have hrest : ∀ j, j < k →
          ∃ r e, resultAt ctx rest (src.GetCredentials ctx w).2 j = some (r, some e) := by
        intro j hj
        have := hfail (j + 1) (Nat.succ_lt_succ hj)
        rwa [resultAt_cons_succ] at this
      obtain ⟨log1, hl⟩ := ih k (idx + 1) (src.GetCredentials ctx w).2 (calls ++ [idx])
        (log ++ [(src.Name, e)]) hrest
      refine ⟨log1, ?_⟩
      rw [loop_cons_fail ctx src rest idx w calls log r e h0, hl, range_shift]
      simp only [List.drop_succ_cons, worldBefore]
      congr 1
      omega

theorem drop_of_getElem? {α : Type} (l : List α) (i : Nat) (a : α) (h : l[i]? = some a) :
    l.drop i = a :: l.drop (i + 1) := by
  obtain ⟨hi, ha⟩ := List.getElem?_eq_some.mp h
  rw [List.drop_eq_getElem_cons hi, ha]

theorem loop_first_success (ctx : Context) (srcs : List (CredentialSource W)) (i idx : Nat)
    (w : W) (calls : List Nat) (log : List (String × Error)) (c : Option Credential)
    (hfail : ∀ j, j < i → ∃ r e, resultAt ctx srcs w j = some (r, some e))
    (hsucc : resultAt ctx srcs w i = some (c, none)) :
    (GetFirstValid.loop ctx srcs idx w calls log).creds = c ∧
    (GetFirstValid.loop ctx srcs idx w calls log).err = none ∧
    (GetFirstValid.loop ctx srcs idx w calls log).calls =
      calls ++ (List.range (i + 1)).map (fun j => idx + j) := by
  obtain ⟨log1, hl⟩ := loop_skip ctx srcs i idx w calls log hfail
  simp only [resultAt, Option.map_eq_some'] at hsucc
  obtain ⟨src, hsrc, hres⟩ := hsucc
  rw [hl, drop_of_getElem? srcs i src hsrc, loop_cons_ok ctx src _ _ _ _ _ c hres]
  refine ⟨rfl, rfl, ?_⟩
  simp [List.range_succ]

theorem loop_all_fail (ctx : Context) (srcs : List (CredentialSource W)) (idx : Nat)
    (w : W) (calls : List Nat) (log : List (String × Error))
    (hfail : ∀ j, j < srcs.length → ∃ r e, resultAt ctx srcs w j = some (r, some e)) :
    (GetFirstValid.loop ctx srcs idx w calls log).creds = none ∧
    (GetFirstValid.loop ctx srcs idx w calls log).err = some ErrNoValidSource ∧
    (GetFirstValid.loop ctx srcs idx w calls log).calls =
      calls ++ (List.range srcs.length).map (fun j => idx + j) := by
  obtain ⟨log1, hl⟩ := loop_skip ctx srcs srcs.length idx w calls log hfail
  rw [hl, List.drop_length]
  exact ⟨rfl, rfl, rfl⟩

/-- The only error the loop returns is the aggregate one. -/
theorem loop_err_cases (ctx : Context) :
    ∀ (srcs : List (CredentialSource W)) (idx : Nat) (w : W) (calls : List Nat)
      (log : List (String × Error)),
      (GetFirstValid.loop ctx srcs idx w calls log).err = none ∨
      (GetFirstValid.loop ctx srcs idx w calls log).err = some ErrNoValidSource := by
  intro srcs
  induction srcs with
  | nil => intro idx w calls log; exact Or.inr rfl
  | cons src rest ih =>
    intro idx w calls log
    rcases hs : (src.GetCredentials ctx w).1 with ⟨c, _ | e⟩
    · rw [loop_cons_ok ctx src rest idx w calls log c hs]
      exact Or.inl rfl
    · rw [loop_cons_fail ctx src rest idx w calls log c e hs]
      exact ih _ _ _ _

/-- When the loop returns an error, every source has failed. -/
theorem loop_err_all_fail (ctx : Context) :
    ∀ (srcs : List (CredentialSource W)) (idx : Nat) (w : W) (calls : List Nat)
      (log : List (String × Error)),
      (GetFirstValid.loop ctx srcs idx w calls log).err ≠ none →
      ∀ j, j < srcs.length → ∃ r e, resultAt ctx srcs w j = some (r, some e) := by
  intro srcs
  induction srcs with
  | nil => intro idx w calls log _ j hj; simp at hj
  | cons src rest ih =>
    intro idx w calls log herr j hj
    rcases hs : (src.GetCredentials ctx w).1 with ⟨c, _ | e⟩
    · rw [loop_cons_ok ctx src rest idx w calls log c hs] at herr
      exact absurd rfl herr
    · rw [loop_cons_fail ctx src rest idx w calls log c e hs] at herr
      cases j with
      | zero => exact ⟨c, e, by rw [resultAt_cons_zero, hs]⟩
      | succ j =>
        rw [resultAt_cons_succ]
        exact ih _ _ _ _ herr j (Nat.lt_of_succ_lt_succ hj)

/-- The starting index and the accumulators of the loop only shift and extend its record of
invocations; the returned pair and the world do not depend on them. -/
theorem loop_acc (ctx : Context) :
    ∀ (srcs : List (CredentialSource W)) (idx : Nat) (w : W) (calls : List Nat)
      (log : List (String × Error)),
      (GetFirstValid.loop ctx srcs idx w calls log).creds =
        (GetFirstValid.loop ctx srcs 0 w [] []).creds ∧
      (GetFirstValid.loop ctx srcs idx w calls log).err =
        (GetFirstValid.loop ctx srcs 0 w [] []).err ∧
      (GetFirstValid.loop ctx srcs idx w calls log).calls =
        calls ++ (GetFirstValid.loop ctx srcs 0 w [] []).calls.map (fun j => j + idx) ∧
      (GetFirstValid.loop ctx srcs idx w calls log).world =
        (GetFirstValid.loop ctx srcs 0 w [] []).world := by
  intro srcs
  induction srcs with
  | nil => intro idx w calls log; simp [GetFirstValid.loop]
  | cons src rest ih =>
    intro idx w calls log
    rcases hs : (src.GetCredentials ctx w).1 with ⟨c, _ | e⟩
    · rw [loop_cons_ok ctx src rest idx w calls log c hs,
        loop_cons_ok ctx src rest 0 w [] [] c hs]
      simp
    · rw [loop_cons_fail ctx src rest idx w calls log c e hs,
        loop_cons_fail ctx src rest 0 w [] [] c e hs]
      obtain ⟨a1, a2, a3, a4⟩ := ih (idx + 1) (src.GetCredentials ctx w).2 (calls ++ [idx])
        (log ++ [(src.Name, e)])
      obtain ⟨b1, b2, b3, b4⟩ := ih (0 + 1) (src.GetCredentials ctx w).2 ([] ++ [0])
        ([] ++ [(src.Name, e)])
      refine ⟨a1.trans b1.symm, a2.trans b2.symm, ?_, a4.trans b4.symm⟩
      rw [a3, b3]
      simp only [List.map_append, List.map_map, List.append_assoc, List.nil_append,
        List.map_cons, List.map_nil, Nat.zero_add, List.singleton_append, List.cons_append]
      congr 2
      apply List.map_congr_left
      intro j _
      simp only [Function.comp_apply]
      omega

/-- A source is invoked as soon as the sources before it have all failed. -/
theorem loop_invokes (ctx : Context) (srcs : List (CredentialSource W)) (n : Nat) (w : W)
    (hfail : ∀ j, j < n → ∃ r e, resultAt ctx srcs w j = some (r, some e))
    (hn : n < srcs.length) :
    n ∈ (GetFirstValid.loop ctx srcs 0 w [] []).calls := by
  obtain ⟨log1, hl⟩ := loop_skip ctx srcs n 0 w [] [] hfail
  rw [hl, List.drop_eq_getElem_cons hn]
  rcases hs : ((srcs[n]).GetCredentials ctx (worldBefore ctx srcs w n)).1 with ⟨c, _ | e⟩
  · rw [loop_cons_ok ctx _ _ _ _ _ _ c hs]
    simp
  · rw [loop_cons_fail ctx _ _ _ _ _ _ c e hs]
    rw [(loop_acc ctx _ _ _ _ _).2.2.1]
    simp

/-- When the loop returns a nil error, what it returns is, unchanged, what the first source to
succeed returned. -/
theorem loop_success_index (ctx : Context) :
    ∀ (srcs : List (CredentialSource W)) (idx : Nat) (w : W) (calls : List Nat)
      (log : List (String × Error)),
      (GetFirstValid.loop ctx srcs idx w calls log).err = none →
      ∃ i, (∀ j, j < i → ∃ r e, resultAt ctx srcs w j = some (r, some e)) ∧
        resultAt ctx srcs w i =
          some ((GetFirstValid.loop ctx srcs idx w calls log).creds, none) := by
  intro srcs
  induction srcs with
  | nil => intro idx w calls log h; simp [GetFirstValid.loop] at h
  | cons src rest ih =>
    intro idx w calls log h
    rcases hs : (src.GetCredentials ctx w).1 with ⟨c, _ | e⟩
    · rw [loop_cons_ok ctx src rest idx w calls log c hs]
      refine ⟨0, fun j hj => absurd hj (Nat.not_lt_zero j), ?_⟩
      rw [resultAt_cons_zero, hs]
    · rw [loop_cons_fail ctx src rest idx w calls log c e hs] at h ⊢
      obtain ⟨i, hbefore, hi⟩ := ih _ _ _ _ h
      refine ⟨i + 1, ?_, ?_⟩
      · intro j hj
        cases j with
        | zero => exact ⟨c, e, by rw [resultAt_cons_zero, hs]⟩
        | succ j =>
          rw [resultAt_cons_succ]
          exact hbefore j (Nat.lt_of_succ_lt_succ hj)
      · rw [resultAt_cons_succ]
        exact hi

/-- Sources that leave the world as it is are all invoked in the initial world. -/
theorem worldBefore_of_preserving (ctx : Context) :
    ∀ (srcs : List (CredentialSource W)) (w : W) (j : Nat),
      (∀ src, src ∈ srcs → ∀ w0, (src.GetCredentials ctx w0).2 = w0) →
      worldBefore ctx srcs w j = w := by
  intro srcs
  induction srcs with
  | nil => intro w j _; rfl
  | cons src rest ih =>
    intro w j h
    cases j with
    | zero => rfl
    | succ j =>
      simp only [worldBefore]
      rw [h src (List.mem_cons_self _ _) w]
      exact ih w j (fun s hs => h s (List.mem_cons_of_mem _ hs))

/-- Sources that return the same under two contexts make the loop return the same. -/
theorem loop_congr_ctx (ctx1 ctx2 : Context) :
    ∀ (srcs : List (CredentialSource W)) (idx : Nat) (w : W) (calls : List Nat)
      (log : List (String × Error)),
      (∀ src, src ∈ srcs → ∀ w0, src.GetCredentials ctx1 w0 = src.GetCredentials ctx2 w0) →
      GetFirstValid.loop ctx1 srcs idx w calls log =
        GetFirstValid.loop ctx2 srcs idx w calls log := by
  intro srcs
  induction srcs with
  | nil => intro idx w calls log _; rfl
  | cons src rest ih =>
    intro idx w calls log h
    have hsrc := h src (List.mem_cons_self _ _) w
    have hrest : ∀ s, s ∈ rest → ∀ w0, s.GetCredentials ctx1 w0 = s.GetCredentials ctx2 w0 :=
      fun s hs => h s (List.mem_cons_of_mem _ hs)
    rcases hs : (src.GetCredentials ctx1 w).1 with ⟨c, _ | e⟩
    · rw [loop_cons_ok ctx1 src rest idx w calls log c hs,
        loop_cons_ok ctx2 src rest idx w calls log c (hsrc ▸ hs), hsrc]
    · rw [loop_cons_fail ctx1 src rest idx w calls log c e hs,
        loop_cons_fail ctx2 src rest idx w calls log c e (hsrc ▸ hs), hsrc]
      exact ih _ _ _ _ hrest

end Loop

/-! ## `CredentialManager.GetFirstValid` -/

/-- C1: when the sources before position `i` all fail and the source at position `i` succeeds
with `c`, `GetFirstValid` returns exactly `c` with a nil error, and the sources it invokes are
those at positions `0, 1, ..., i`, in this order, each once, none after `i`. -/
theorem GetFirstValid_first_success {W : Type} (m : CredentialManager W) (ctx : Context)
    (w : W) (i : Nat) (c : Option Credential)
    (hfail : ∀ j, j < i → ∃ r e, resultAt ctx m.sources w j = some (r, some e))
    (hsucc : resultAt ctx m.sources w i = some (c, none)) :
    (m.GetFirstValid ctx w).creds = c ∧
    (m.GetFirstValid ctx w).err = none ∧
    (m.GetFirstValid ctx w).calls = List.range (i + 1) := by
  obtain ⟨h1, h2, h3⟩ := loop_first_success ctx m.sources i 0 w [] [] c hfail hsucc
  refine ⟨h1, h2, ?_⟩
  rw [CredentialManager.GetFirstValid, h3]
  simp

/-- Witness of C1: a dynamic source that fails, then the static source
`static(localhost, 5432, u, p, d)`; both are invoked and the static credential is returned. -/
theorem GetFirstValid_first_success_witness :
    ((NewManager [sampleDynamic.toSource, sampleStatic.toSource]).GetFirstValid
        Context.Background offlineWorld).creds = some sampleStaticCredential ∧
    ((NewManager [sampleDynamic.toSource, sampleStatic.toSource]).GetFirstValid
        Context.Background offlineWorld).err = none ∧
    ((NewManager [sampleDynamic.toSource, sampleStatic.toSource]).GetFirstValid
        Context.Background offlineWorld).calls = List.range (1 + 1) :=
  GetFirstValid_first_success (NewManager [sampleDynamic.toSource, sampleStatic.toSource])
    Context.Background offlineWorld 1 (some sampleStaticCredential)
    (by
      intro j hj
      have hj0 : j = 0 := by omega
      subst hj0
      exact ⟨none, Error.Errorf "failed to create AWS session"
        (Error.New "no credential providers"), rfl⟩)
    (by decide)

/-- C2: the sources all fail exactly when `GetFirstValid` returns an error; in that case, the
empty list included, it returns no credential and the aggregate error "no valid credential
sources found", whatever the errors of the sources were, having invoked every source once, in
list order. -/
theorem GetFirstValid_all_fail {W : Type} (m : CredentialManager W) (ctx : Context) (w : W) :
    ((∀ j, j < m.sources.length → ∃ r e, resultAt ctx m.sources w j = some (r, some e)) ↔
      (m.GetFirstValid ctx w).err ≠ none) ∧
    ((∀ j, j < m.sources.length → ∃ r e, resultAt ctx m.sources w j = some (r, some e)) →
      (m.GetFirstValid ctx w).creds = none ∧
      (m.GetFirstValid ctx w).err = some ErrNoValidSource ∧
      ErrNoValidSource.message = "no valid credential sources found" ∧
      (m.GetFirstValid ctx w).calls = List.range m.sources.length) := by
  have key : (∀ j, j < m.sources.length →
      ∃ r e, resultAt ctx m.sources w j = some (r, some e)) →
      (m.GetFirstValid ctx w).creds = none ∧
      (m.GetFirstValid ctx w).err = some ErrNoValidSource ∧
      ErrNoValidSource.message = "no valid credential sources found" ∧
      (m.GetFirstValid ctx w).calls = List.range m.sources.length := by
    intro hfail
    obtain ⟨h1, h2, h3⟩ := loop_all_fail ctx m.sources 0 w [] [] hfail
    refine ⟨h1, h2, rfl, ?_⟩
    rw [CredentialManager.GetFirstValid, h3]
    simp
  refine ⟨⟨fun hfail => ?_, fun herr => ?_⟩, key⟩
  · rw [(key hfail).2.1]
    exact Option.some_ne_none _
  · exact loop_err_all_fail ctx m.sources 0 w [] [] herr

/-- Witness of C2: two sources failing with different errors, one of them a cancellation. -/
theorem GetFirstValid_all_fail_witness :
    ((NewManager [sampleDynamic.toSource, contextAwareSource]).GetFirstValid
        Context.cancelled offlineWorld).creds = none ∧
    ((NewManager [sampleDynamic.toSource, contextAwareSource]).GetFirstValid
        Context.cancelled offlineWorld).err = some ErrNoValidSource ∧
    ErrNoValidSource.message = "no valid credential sources found" ∧
    ((NewManager [sampleDynamic.toSource, contextAwareSource]).GetFirstValid
        Context.cancelled offlineWorld).calls = List.range 2 :=
  (GetFirstValid_all_fail (NewManager [sampleDynamic.toSource, contextAwareSource])
    Context.cancelled offlineWorld).2
    (by
      intro j hj
      have hj2 : j < 2 := hj
      rcases Nat.lt_succ_iff_lt_or_eq.mp hj2 with h | h
      · have hj0 : j = 0 := by omega
        subst hj0
        exact ⟨none, Error.Errorf "failed to create AWS session"
          (Error.New "no credential providers"), rfl⟩
      · subst h
        exact ⟨none, Error.Canceled, rfl⟩)

/-- Counterexample to C3: under a cancelled context the first source fails with
`context.Canceled`; `GetFirstValid` does not return that error, it goes on to invoke the static
source at position 1 and returns its credential. -/
theorem GetFirstValid_cancellation_counterexample :
    resultAt Context.cancelled [contextAwareSource, sampleStatic.toSource] () 0 =
      some (none, some Error.Canceled) ∧
    Error.Canceled.isCancellation = true ∧
    ((NewManager [contextAwareSource, sampleStatic.toSource]).GetFirstValid
        Context.cancelled ()).err ≠ some Error.Canceled ∧
    ((NewManager [contextAwareSource, sampleStatic.toSource]).GetFirstValid
        Context.cancelled ()).creds = some sampleStaticCredential ∧
    ((NewManager [contextAwareSource, sampleStatic.toSource]).GetFirstValid
        Context.cancelled ()).calls = [0, 1] := by
  decide

/-- C3, amended: a source that fails with a context-cancelled or deadline-exceeded error, the
sources before it having failed, is passed over like any other failing source. The loop goes
on: the next source, when there is one, is invoked; when the first source to succeed after it
is the one at position `i`, `GetFirstValid` returns that source's credential with a nil error,
having invoked the sources `0, ..., i` in order; when the sources after it all fail,
`GetFirstValid` returns the aggregate error, having invoked every source. The cancellation
error is never returned. -/
theorem GetFirstValid_cancellation_continues {W : Type} (m : CredentialManager W)
    (ctx : Context) (w : W) (k : Nat) (r : Option Credential) (e : Error)
    (hfail : ∀ j, j < k → ∃ r e, resultAt ctx m.sources w j = some (r, some e))
    (hk : resultAt ctx m.sources w k = some (r, some e))
    (hc : e.isCancellation = true) :
    (∀ i c, k < i →
      (∀ j, k < j → j < i → ∃ r e, resultAt ctx m.sources w j = some (r, some e)) →
      resultAt ctx m.sources w i = some (c, none) →
      (m.GetFirstValid ctx w).creds = c ∧
      (m.GetFirstValid ctx w).err = none ∧
      (m.GetFirstValid ctx w).calls = List.range (i + 1)) ∧
    ((∀ j, k < j → j < m.sources.length →
        ∃ r e, resultAt ctx m.sources w j = some (r, some e)) →
      (m.GetFirstValid ctx w).creds = none ∧
      (m.GetFirstValid ctx w).err = some ErrNoValidSource ∧
      (m.GetFirstValid ctx w).calls = List.range m.sources.length) ∧
    k ∈ (m.GetFirstValid ctx w).calls ∧
    (k + 1 < m.sources.length → k + 1 ∈ (m.GetFirstValid ctx w).calls) ∧
    (m.GetFirstValid ctx w).err ≠ some e ∧
    ((m.GetFirstValid ctx w).err = none ∨
      (m.GetFirstValid ctx w).err = some ErrNoValidSource) := by
  have hall : ∀ j, j < k + 1 → ∃ r e, resultAt ctx m.sources w j = some (r, some e) := by
    intro j hj
    rcases Nat.lt_succ_iff_lt_or_eq.mp hj with h | h
    · exact hfail j h
    · subst h
      exact ⟨r, e, hk⟩
  have hklen : k < m.sources.length := by
    simp only [resultAt, Option.map_eq_some'] at hk
    obtain ⟨src, hsrc, _⟩ := hk
    exact (List.getElem?_eq_some.mp hsrc).1
  have hcases := loop_err_cases ctx m.sources 0 w [] []
  refine ⟨?_, ?_, ?_, ?_, ?_, hcases⟩
  · intro i c hki hmid hsucc
    have hbefore : ∀ j, j < i → ∃ r e, resultAt ctx m.sources w j = some (r, some e) := by
      intro j hj
      by_cases hjk : j < k + 1
      · exact hall j hjk
      · exact hmid j (by omega) hj
    obtain ⟨h1, h2, h3⟩ := loop_first_success ctx m.sources i 0 w [] [] c hbefore hsucc
    refine ⟨h1, h2, ?_⟩
    rw [CredentialManager.GetFirstValid, h3]
    simp
  · intro hafter
    have hevery : ∀ j, j < m.sources.length →
        ∃ r e, resultAt ctx m.sources w j = some (r, some e) := by
      intro j hj
      by_cases hjk : j < k + 1
      · exact hall j hjk
      · exact hafter j (by omega) hj
    obtain ⟨h1, h2, h3⟩ := loop_all_fail ctx m.sources 0 w [] [] hevery
    refine ⟨h1, h2, ?_⟩
    rw [CredentialManager.GetFirstValid, h3]
    simp
  · exact loop_invokes ctx m.sources k w hfail hklen
  · intro hnext
    exact loop_invokes ctx m.sources (k + 1) w hall hnext
  · rcases hcases with h | h
    · rw [CredentialManager.GetFirstValid, h]
      exact fun hne => Option.noConfusion hne
    · rw [CredentialManager.GetFirstValid, h]
      intro heq
      have he : e = ErrNoValidSource := (Option.some.inj heq).symm
      rw [he] at hc
      exact absurd hc (by decide)

/-- Witness of the amended C3: a source failing with `context.Canceled` under a cancelled
context, then the static source, which is invoked and whose credential is returned. -/
theorem GetFirstValid_cancellation_continues_witness :
    ((NewManager [contextAwareSource, sampleStatic.toSource]).GetFirstValid
        Context.cancelled ()).creds = some sampleStaticCredential ∧
    ((NewManager [contextAwareSource, sampleStatic.toSource]).GetFirstValid
        Context.cancelled ()).err = none ∧
    ((NewManager [contextAwareSource, sampleStatic.toSource]).GetFirstValid
        Context.cancelled ()).calls = List.range (1 + 1) :=
  (GetFirstValid_cancellation_continues
    (NewManager [contextAwareSource, sampleStatic.toSource]) Context.cancelled () 0 none
    Error.Canceled (fun j hj => absurd hj (Nat.not_lt_zero j)) (by decide) (by decide)).1
    1 (some sampleStaticCredential) (by decide) (fun j h1 h2 => absurd h2 (by omega))
    (by decide)

/-- Counterexample to C4: given an already-cancelled context, the static source succeeds, and
so does the dynamic source when signing succeeds; `GetFirstValid` on a manager holding the
static source returns a credential and a nil error. -/
theorem GetFirstValid_cancelled_context_counterexample :
    Context.cancelled.Err = some Error.Canceled ∧
    sampleStatic.GetCredentials Context.cancelled = (some sampleStaticCredential, none) ∧
    (sampleDynamic.GetCredentials Context.cancelled onlineWorld).2 = none ∧
    ((NewManager [sampleStatic.toSource]).GetFirstValid Context.cancelled ()).creds =
      some sampleStaticCredential ∧
    ((NewManager [sampleStatic.toSource]).GetFirstValid Context.cancelled ()).err = none := by
  decide

/-- C4, amended: the static and the dynamic source do not consult the context, so each returns
under any context, an already-cancelled one included, what it returns under a live one (the
static source its credential with a nil error); a manager whose sources do not consult the
context yields under that context the outcome it yields under a live one, and a manager whose
first source is static returns that source's credential, invoking the first source only. -/
theorem GetFirstValid_cancelled_context :
    (∀ (r : RDSPostgresSource) (ctx : Context),
      r.GetCredentials ctx = r.GetCredentials Context.Background ∧
      (r.GetCredentials ctx).2 = none ∧ (r.GetCredentials ctx).1 ≠ none) ∧
    (∀ (d : DynamicRDSSource) (ctx : Context) (w : World),
      d.GetCredentials ctx w = d.GetCredentials Context.Background w) ∧
    (∀ (W : Type) (m : CredentialManager W) (ctx : Context) (w : W),
      (∀ src, src ∈ m.sources → ∀ w0,
        src.GetCredentials ctx w0 = src.GetCredentials Context.Background w0) →
      m.GetFirstValid ctx w = m.GetFirstValid Context.Background w) ∧
    (∀ (W : Type) (r : RDSPostgresSource) (rest : List (CredentialSource W)) (ctx : Context)
      (w : W),
      ((NewManager (r.toSource :: rest)).GetFirstValid ctx w).creds = (r.GetCredentials ctx).1 ∧
      ((NewManager (r.toSource :: rest)).GetFirstValid ctx w).err = none ∧
      ((NewManager (r.toSource :: rest)).GetFirstValid ctx w).calls = [0]) := by
  refine ⟨fun r ctx => ⟨rfl, rfl, ?_⟩, fun d ctx w => rfl, ?_, ?_⟩
  · simp [RDSPostgresSource.GetCredentials]
  · intro W m ctx w h
    exact loop_congr_ctx ctx Context.Background m.sources 0 w [] [] h
  · intro W r rest ctx w
    simp only [CredentialManager.GetFirstValid, NewManager]
    rw [loop_cons_ok ctx r.toSource rest 0 w [] [] (r.GetCredentials ctx).1 rfl]
    exact ⟨rfl, rfl, rfl⟩

/-- Witness of the amended C4: the dynamic source followed by the static one, under an
already-cancelled context. -/
theorem GetFirstValid_cancelled_context_witness :
    (NewManager [sampleDynamic.toSource, sampleStatic.toSource]).GetFirstValid
        Context.cancelled onlineWorld =
      (NewManager [sampleDynamic.toSource, sampleStatic.toSource]).GetFirstValid
        Context.Background onlineWorld :=
  GetFirstValid_cancelled_context.2.2.1 World
    (NewManager [sampleDynamic.toSource, sampleStatic.toSource]) Context.cancelled onlineWorld
    (by
      intro src hsrc w0
      simp only [NewManager, List.mem_cons, List.mem_singleton, List.not_mem_nil,
        or_false] at hsrc
      rcases hsrc with h | h <;> subst h <;> rfl)

/-! ## The three exits of the dynamic source -/

theorem dynamic_session_error (d : DynamicRDSSource) (ctx : Context) (w : World) (e : Error)
    (hs : w.NewSessionWithOptions = .error e) :
    d.GetCredentials ctx w = (none, some (Error.Errorf "failed to create AWS session" e)) := by
  simp only [DynamicRDSSource.GetCredentials, hs]

theorem dynamic_token_error (d : DynamicRDSSource) (ctx : Context) (w : World)
    (sess : Session) (e : Error) (hs : w.NewSessionWithOptions = .ok sess)
    (ht : w.BuildAuthToken (d.Host ++ ":" ++ fmtD d.Port) d.Region d.Username
      sess.Credentials = .error e) :
    d.GetCredentials ctx w =
      (none, some (Error.Errorf "failed to generate RDS auth token" e)) := by
  simp only [DynamicRDSSource.GetCredentials, hs, ht]

theorem dynamic_success (d : DynamicRDSSource) (ctx : Context) (w : World)
    (sess : Session) (tok : String) (hs : w.NewSessionWithOptions = .ok sess)
    (ht : w.BuildAuthToken (d.Host ++ ":" ++ fmtD d.Port) d.Region d.Username
      sess.Credentials = .ok tok) :
    d.GetCredentials ctx w =
      (some
        { Key := "dynamic_rds_postgres"
          Value := tok
          Expiry := some (w.Now + 15 * Minute)
          Metadata :=
            [ ("host", d.Host), ("port", fmtD d.Port), ("username", d.Username),
              ("database", d.Database), ("region", d.Region), ("type", "dynamic"),
              ("service", "rds_postgres"), ("auth_method", "iam_token"),
              ("expires_at", w.FormatRFC3339 (w.Now + 15 * Minute)),
              ("endpoint", d.Host ++ ":" ++ fmtD d.Port) ] },
       none) := by
  simp only [DynamicRDSSource.GetCredentials, hs, ht]

/-- A credential returned by the dynamic source with a nil error comes from the last exit. -/
theorem dynamic_success_inv (d : DynamicRDSSource) (ctx : Context) (w : World)
    (c : Credential) (h : d.GetCredentials ctx w = (some c, none)) :
    ∃ sess, w.NewSessionWithOptions = .ok sess ∧
      w.BuildAuthToken (d.Host ++ ":" ++ fmtD d.Port) d.Region d.Username sess.Credentials =
        .ok c.Value ∧
      c.Expiry = some (w.Now + 15 * Minute) := by
  rcases hs : w.NewSessionWithOptions with e | sess
  · rw [dynamic_session_error d ctx w e hs] at h
    simp at h
  · rcases ht : w.BuildAuthToken (d.Host ++ ":" ++ fmtD d.Port) d.Region d.Username
      sess.Credentials with e | tok
    · rw [dynamic_token_error d ctx w sess e hs ht] at h
      simp at h
    · rw [dynamic_success d ctx w sess tok hs ht] at h
      simp only [Prod.mk.injEq, Option.some.injEq, and_true] at h
      subst h
      exact ⟨sess, rfl, ht, rfl⟩

/-- The dynamic source never returns a nil credential with a nil error. -/
theorem dynamic_nil_error (d : DynamicRDSSource) (ctx : Context) (w : World)
    (oc : Option Credential) (h : d.GetCredentials ctx w = (oc, none)) :
    ∃ c, oc = some c := by
  rcases hs : w.NewSessionWithOptions with e | sess
  · rw [dynamic_session_error d ctx w e hs] at h
    simp at h
  · rcases ht : w.BuildAuthToken (d.Host ++ ":" ++ fmtD d.Port) d.Region d.Username
      sess.Credentials with e | tok
    · rw [dynamic_token_error d ctx w sess e hs ht] at h
      simp at h
    · rw [dynamic_success d ctx w sess tok hs ht] at h
      simp only [Prod.mk.injEq, and_true] at h
      exact ⟨_, h.symm⟩

theorem fifteen_minutes_pos : (0 : Int) < 15 * Minute := by decide

/-- The rendering by `%d` is the decimal rendering of the integer. -/
theorem fmtD_eq_toString (n : Int) : fmtD n = toString n := by
  cases n with
  | ofNat m =>
    have h : ¬ ((Int.ofNat m) < 0) := by simp
    simp only [fmtD, h, if_false]
    rfl
  | negSucc m =>
    have h : (Int.negSucc m) < 0 := Int.negSucc_lt_zero m
    simp only [fmtD, h, if_true]
    rfl

/-! ## The static source -/

/-- C5: for every host, port, user, password and database, and every context, `GetCredentials`
of `NewRDSPostgresSource host port user pass db` succeeds (nil error) with the credential
whose `Key` is "rds_postgres", whose `Value` is `pass`, whose `Expiry` is absent and whose
`Metadata` has exactly the entries host, port (in decimal), username, database, type "static"
and service "rds_postgres". -/
theorem RDSPostgresSource_GetCredentials (host : String) (port : Int) (user pass db : String)
    (ctx : Context) :
    (NewRDSPostgresSource host port user pass db).GetCredentials ctx =
      (some
        { Key := "rds_postgres"
          Value := pass
          Expiry := none
          Metadata :=
            [ ("host", host), ("port", fmtD port), ("username", user), ("database", db),
              ("type", "static"), ("service", "rds_postgres") ] },
       none) ∧
    (∀ c, ((NewRDSPostgresSource host port user pass db).GetCredentials ctx).1 = some c →
      lookup c.Metadata "host" = some host ∧
      lookup c.Metadata "port" = some (fmtD port) ∧
      lookup c.Metadata "username" = some user ∧
      lookup c.Metadata "database" = some db ∧
      lookup c.Metadata "type" = some "static" ∧
      lookup c.Metadata "service" = some "rds_postgres" ∧
      (c.Metadata.map Prod.fst).Nodup ∧ c.Metadata.length = 6) ∧
    fmtD port = toString port := by
  refine ⟨rfl, ?_, fmtD_eq_toString port⟩
  intro c hc
  simp only [RDSPostgresSource.GetCredentials, NewRDSPostgresSource, Option.some.injEq] at hc
  subst hc
  refine ⟨?_, ?_, ?_, ?_, ?_, ?_, ?_, rfl⟩ <;> simp [lookup, List.find?]

/-- Witness of C5: the metadata of `static(localhost, 5432, u, p, d)`, the port rendered as
"5432". -/
theorem RDSPostgresSource_GetCredentials_witness :
    lookup sampleStaticCredential.Metadata "host" = some "localhost" ∧
    lookup sampleStaticCredential.Metadata "port" = some (fmtD 5432) ∧
    lookup sampleStaticCredential.Metadata "username" = some "u" ∧
    lookup sampleStaticCredential.Metadata "database" = some "d" ∧
    lookup sampleStaticCredential.Metadata "type" = some "static" ∧
    lookup sampleStaticCredential.Metadata "service" = some "rds_postgres" ∧
    (sampleStaticCredential.Metadata.map Prod.fst).Nodup ∧
    sampleStaticCredential.Metadata.length = 6 :=
  (RDSPostgresSource_GetCredentials "localhost" 5432 "u" "p" "d" Context.Background).2.1
    sampleStaticCredential (by decide)

/-- Counterexample to C6: a static source constructed with the empty password succeeds with a
credential whose `Value` is the empty string, and `GetFirstValid` returns that credential. -/
theorem Value_nonempty_counterexample :
    (NewRDSPostgresSource "localhost" 5432 "u" "" "d").GetCredentials Context.Background =
      (some
        { Key := "rds_postgres"
          Value := ""
          Expiry := none
          Metadata :=
            [ ("host", "localhost"), ("port", "5432"), ("username", "u"), ("database", "d"),
              ("type", "static"), ("service", "rds_postgres") ] },
       none) ∧
    ((NewManager [(NewRDSPostgresSource "localhost" 5432 "u" "" "d").toSource]).GetFirstValid
        Context.Background ()).err = none ∧
    ((NewManager [(NewRDSPostgresSource "localhost" 5432 "u" "" "d").toSource]).GetFirstValid
        Context.Background ()).creds.map Credential.Value = some "" := by
  decide

/-- C6, amended: the `Value` of a credential returned successfully by the static source is the
password given at construction, hence non-empty exactly when that password is non-empty; the
`Value` returned successfully by the dynamic source is the token returned by the signing call,
hence non-empty when the signer returns non-empty tokens only. `GetFirstValid`, when it returns
a nil error, returns unchanged what the first source to succeed returned; so for a manager
made of dynamic sources and of static sources with non-empty passwords, the signer returning
non-empty tokens only, every successful `GetFirstValid` returns a credential whose `Value` is
non-empty. -/
theorem Value_nonempty :
    (∀ (host : String) (port : Int) (user pass db : String) (ctx : Context) (c : Credential),
      (NewRDSPostgresSource host port user pass db).GetCredentials ctx = (some c, none) →
      c.Value = pass ∧ (c.Value ≠ "" ↔ pass ≠ "")) ∧
    (∀ (d : DynamicRDSSource) (ctx : Context) (w : World) (c : Credential),
      d.GetCredentials ctx w = (some c, none) →
      (∃ sess, w.NewSessionWithOptions = .ok sess ∧
        w.BuildAuthToken (d.Host ++ ":" ++ fmtD d.Port) d.Region d.Username sess.Credentials =
          .ok c.Value) ∧
      ((∀ endpoint region user ident tok,
          w.BuildAuthToken endpoint region user ident = .ok tok → tok ≠ "") →
        c.Value ≠ "")) ∧
    (∀ (W : Type) (m : CredentialManager W) (ctx : Context) (w : W),
      (m.GetFirstValid ctx w).err = none →
      ∃ i, (∀ j, j < i → ∃ r e, resultAt ctx m.sources w j = some (r, some e)) ∧
        resultAt ctx m.sources w i = some ((m.GetFirstValid ctx w).creds, none)) ∧
    (∀ (m : CredentialManager World) (ctx : Context) (w : World),
      (∀ src, src ∈ m.sources →
        (∃ r : RDSPostgresSource, r.Password ≠ "" ∧ src = r.toSource) ∨
        (∃ d : DynamicRDSSource, src = d.toSource)) →
      (∀ endpoint region user ident tok,
        w.BuildAuthToken endpoint region user ident = .ok tok → tok ≠ "") →
      (m.GetFirstValid ctx w).err = none →
      ∃ c, (m.GetFirstValid ctx w).creds = some c ∧ c.Value ≠ "") := by
  refine ⟨?_, ?_, ?_, ?_⟩
  · intro host port user pass db ctx c h
    simp only [RDSPostgresSource.GetCredentials, NewRDSPostgresSource, Prod.mk.injEq,
      Option.some.injEq, and_true] at h
    subst h
    exact ⟨rfl, Iff.rfl⟩
  · intro d ctx w c h
    obtain ⟨sess, hs, ht, _⟩ := dynamic_success_inv d ctx w c h
    exact ⟨⟨sess, hs, ht⟩, fun hsign => hsign _ _ _ _ _ ht⟩
  · intro W m ctx w herr
    exact loop_success_index ctx m.sources 0 w [] [] herr
  · intro m ctx w hsrcs hsign herr
    obtain ⟨i, _, hi⟩ := loop_success_index ctx m.sources 0 w [] [] herr
    have hpres : ∀ src, src ∈ m.sources → ∀ w0, (src.GetCredentials ctx w0).2 = w0 := by
      intro src hsrc w0
      rcases hsrcs src hsrc with ⟨r, _, hr⟩ | ⟨d, hd⟩
      · subst hr; rfl
      · subst hd; rfl
    simp only [resultAt, Option.map_eq_some'] at hi
    rw [worldBefore_of_preserving ctx m.sources w i hpres] at hi
    obtain ⟨src, hget, hres⟩ := hi
    have hmem : src ∈ m.sources := List.getElem?_mem hget
    rw [CredentialManager.GetFirstValid]
    rcases hsrcs src hmem with ⟨r, hpass, hr⟩ | ⟨d, hd⟩
    · subst hr
      simp only [RDSPostgresSource.toSource, RDSPostgresSource.GetCredentials,
        Prod.mk.injEq, and_true] at hres
      exact ⟨_, hres.symm, hpass⟩
    · subst hd
      have hd1 : d.GetCredentials ctx w =
          ((GetFirstValid.loop ctx m.sources 0 w [] []).creds, none) := hres
      obtain ⟨c, hc⟩ := dynamic_nil_error d ctx w _ hd1
      rw [hc] at hd1
      obtain ⟨sess, _, ht, _⟩ := dynamic_success_inv d ctx w c hd1
      exact ⟨c, hc, hsign _ _ _ _ _ ht⟩

/-- The signer of `onlineWorld` returns non-empty tokens only. -/
theorem onlineWorld_tokens_nonempty (endpoint region user ident tok : String)
    (h : onlineWorld.BuildAuthToken endpoint region user ident = .ok tok) : tok ≠ "" := by
  simp only [onlineWorld, Except.ok.injEq] at h
  intro htok
  have hlen := congrArg String.length (h.trans htok)
  simp only [String.length_append] at hlen
  have h9 : "/?DBUser=".length = 9 := by decide
  have h0 : "".length = 0 := by decide
  omega

/-- Witness of the amended C6: the dynamic source followed by the static source with password
"p", in a world where signing succeeds; the credential returned has a non-empty `Value`. -/
theorem Value_nonempty_witness :
    ∃ c, ((NewManager [sampleDynamic.toSource, sampleStatic.toSource]).GetFirstValid
        Context.Background onlineWorld).creds = some c ∧ c.Value ≠ "" :=
  Value_nonempty.2.2.2 (NewManager [sampleDynamic.toSource, sampleStatic.toSource])
    Context.Background onlineWorld
    (by
      intro src hsrc
      simp only [NewManager, List.mem_cons, List.mem_singleton, List.not_mem_nil,
        or_false] at hsrc
      rcases hsrc with h | h
      · exact Or.inr ⟨sampleDynamic, h⟩
      · exact Or.inl ⟨sampleStatic, by decide, h⟩)
    onlineWorld_tokens_nonempty
    rfl

/-! ## The dynamic source -/

/-- C7: at issuance time `w.Now`, when session creation succeeds and signing succeeds with the
token `tok`, `GetCredentials` of a dynamic source returns, with a nil error, a credential with
`Key` "dynamic_rds_postgres", `Value` `tok`, `Expiry` the issuance time plus 15 minutes (an
instant strictly after the issuance time), and metadata `auth_method` "iam_token", `endpoint`
"Host:Port" and `expires_at` the RFC3339 rendering of that expiry; when either step fails it
returns an error and no credential. -/
theorem DynamicRDSSource_GetCredentials (d : DynamicRDSSource) (ctx : Context) (w : World) :
    (∀ sess tok, w.NewSessionWithOptions = .ok sess →
      w.BuildAuthToken (d.Host ++ ":" ++ fmtD d.Port) d.Region d.Username sess.Credentials =
        .ok tok →
      ∃ c, d.GetCredentials ctx w = (some c, none) ∧
        c.Key = "dynamic_rds_postgres" ∧
        c.Value = tok ∧
        c.Expiry = some (w.Now + 15 * Minute) ∧
        15 * Minute = 15 * 60 * 1000000000 ∧
        w.Now < w.Now + 15 * Minute ∧
        lookup c.Metadata "auth_method" = some "iam_token" ∧
        lookup c.Metadata "endpoint" = some (d.Host ++ ":" ++ fmtD d.Port) ∧
        lookup c.Metadata "expires_at" = some (w.FormatRFC3339 (w.Now + 15 * Minute))) ∧
    (∀ e, w.NewSessionWithOptions = .error e →
      ∃ e1, d.GetCredentials ctx w = (none, some e1)) ∧
    (∀ sess e, w.NewSessionWithOptions = .ok sess →
      w.BuildAuthToken (d.Host ++ ":" ++ fmtD d.Port) d.Region d.Username sess.Credentials =
        .error e →
      ∃ e1, d.GetCredentials ctx w = (none, some e1)) := by
  refine ⟨?_, ?_, ?_⟩
  · intro sess tok hs ht
    refine ⟨_, dynamic_success d ctx w sess tok hs ht, rfl, rfl, rfl, by decide, ?_, ?_, ?_, ?_⟩
    · exact lt_add_of_pos_right _ fifteen_minutes_pos
    · simp [lookup, List.find?]
    · simp [lookup, List.find?]
    · simp [lookup, List.find?]
  · intro e hs
    exact ⟨_, dynamic_session_error d ctx w e hs⟩
  · intro sess e hs ht
    exact ⟨_, dynamic_token_error d ctx w sess e hs ht⟩

/-- Witness of C7: the sample dynamic source in a world where both steps succeed. -/
theorem DynamicRDSSource_GetCredentials_witness :
    ∃ c, sampleDynamic.GetCredentials Context.Background onlineWorld = (some c, none) ∧
      c.Key = "dynamic_rds_postgres" ∧
      c.Value = ":5432/?DBUser=" ∧
      c.Expiry = some (onlineWorld.Now + 15 * Minute) ∧
      15 * Minute = 15 * 60 * 1000000000 ∧
      onlineWorld.Now < onlineWorld.Now + 15 * Minute ∧
      lookup c.Metadata "auth_method" = some "iam_token" ∧
      lookup c.Metadata "endpoint" =
        some (sampleDynamic.Host ++ ":" ++ fmtD sampleDynamic.Port) ∧
      lookup c.Metadata "expires_at" =
        some (onlineWorld.FormatRFC3339 (onlineWorld.Now + 15 * Minute)) :=
  (DynamicRDSSource_GetCredentials sampleDynamic Context.Background onlineWorld).1
    { Credentials := "role" } ":5432/?DBUser=" rfl rfl

/-- C8: `NewDynamicRDSSource` keeps every argument that is not a sentinel, whatever the
environment; it replaces an empty host, user or database by the value of `DB_HOST`, `DB_USER`
or `DB_NAME`, an empty region by a non-empty `AWS_REGION`, a zero port by the non-zero integer
that `DB_PORT` parses to; when `DB_PORT` is unset, empty, not an integer or zero the port is
5432, and when `AWS_REGION` is unset or empty the region is "us-west-2"; so the port is never
0 and the region never empty. -/
theorem NewDynamicRDSSource_spec (env : Environ) (atoi : String → Option Int)
    (host : String) (port : Int) (user db region : String) :
    (host ≠ "" → (NewDynamicRDSSource env atoi host port user db region).Host = host) ∧
    (port ≠ 0 → (NewDynamicRDSSource env atoi host port user db region).Port = port) ∧
    (user ≠ "" → (NewDynamicRDSSource env atoi host port user db region).Username = user) ∧
    (db ≠ "" → (NewDynamicRDSSource env atoi host port user db region).Database = db) ∧
    (region ≠ "" → (NewDynamicRDSSource env atoi host port user db region).Region = region) ∧
    (host = "" →
      (NewDynamicRDSSource env atoi host port user db region).Host = Getenv env "DB_HOST") ∧
    (user = "" →
      (NewDynamicRDSSource env atoi host port user db region).Username =
        Getenv env "DB_USER") ∧
    (db = "" →
      (NewDynamicRDSSource env atoi host port user db region).Database =
        Getenv env "DB_NAME") ∧
    (region = "" → Getenv env "AWS_REGION" ≠ "" →
      (NewDynamicRDSSource env atoi host port user db region).Region =
        Getenv env "AWS_REGION") ∧
    (region = "" → (env "AWS_REGION" = none ∨ env "AWS_REGION" = some "") →
      (NewDynamicRDSSource env atoi host port user db region).Region = "us-west-2") ∧
    (port = 0 → ∀ p, Getenv env "DB_PORT" ≠ "" → atoi (Getenv env "DB_PORT") = some p →
      p ≠ 0 → (NewDynamicRDSSource env atoi host port user db region).Port = p) ∧
    (port = 0 →
      (env "DB_PORT" = none ∨ env "DB_PORT" = some "" ∨
        atoi (Getenv env "DB_PORT") = none ∨ atoi (Getenv env "DB_PORT") = some 0) →
      (NewDynamicRDSSource env atoi host port user db region).Port = 5432) ∧
    (NewDynamicRDSSource env atoi host port user db region).Port ≠ 0 ∧
    (NewDynamicRDSSource env atoi host port user db region).Region ≠ "" := by
  refine ⟨?_, ?_, ?_, ?_, ?_, ?_, ?_, ?_, ?_, ?_, ?_, ?_, ?_, ?_⟩
  · intro h; simp [NewDynamicRDSSource, h]
  · intro h; simp [NewDynamicRDSSource, h]
  · intro h; simp [NewDynamicRDSSource, h]
  · intro h; simp [NewDynamicRDSSource, h]
  · intro h; simp [NewDynamicRDSSource, h]
  · intro h; simp [NewDynamicRDSSource, h]
  · intro h; simp [NewDynamicRDSSource, h]
  · intro h; simp [NewDynamicRDSSource, h]
  · intro h h1; simp [NewDynamicRDSSource, h, h1]
  · intro h h1
    have hg : Getenv env "AWS_REGION" = "" := by
      rcases h1 with h1 | h1 <;> simp [Getenv, h1]
    simp [NewDynamicRDSSource, h, hg]
  · intro h p h1 h2 h3
    simp [NewDynamicRDSSource, h, h1, h2, h3]
  · intro h h1
    rcases h1 with h1 | h1 | h1 | h1
    · have hg : Getenv env "DB_PORT" = "" := by simp [Getenv, h1]
      simp [NewDynamicRDSSource, h, hg]
    · have hg : Getenv env "DB_PORT" = "" := by simp [Getenv, h1]
      simp [NewDynamicRDSSource, h, hg]
    · by_cases hg : Getenv env "DB_PORT" = ""
      · simp [NewDynamicRDSSource, h, hg]
      · simp [NewDynamicRDSSource, h, hg, h1]
    · by_cases hg : Getenv env "DB_PORT" = ""
      · simp [NewDynamicRDSSource, h, hg]
      · simp [NewDynamicRDSSource, h, hg, h1]
  · by_cases h : port = 0
    · by_cases hg : Getenv env "DB_PORT" = ""
      · simp [NewDynamicRDSSource, h, hg]
      · rcases ha : atoi (Getenv env "DB_PORT") with _ | p
        · simp [NewDynamicRDSSource, h, hg, ha]
        · by_cases hp : p = 0
          · simp [NewDynamicRDSSource, h, hg, ha, hp]
          · simp [NewDynamicRDSSource, h, hg, ha, hp]
    · simp [NewDynamicRDSSource, h]
  · by_cases h : region = ""
    · by_cases hg : Getenv env "AWS_REGION" = ""
      · simp [NewDynamicRDSSource, h, hg]
      · simp [NewDynamicRDSSource, h, hg]
    · simp [NewDynamicRDSSource, h]

/-- Witness of C8: sentinel arguments in an environment in which `DB_HOST` is set and
`DB_PORT` is "6543". -/
theorem NewDynamicRDSSource_spec_witness :
    (NewDynamicRDSSource
      (fun k => if k = "DB_HOST" then some "db.internal" else
        if k = "DB_PORT" then some "6543" else none)
      Atoi "" 0 "" "" "").Port = 6543 :=
  (NewDynamicRDSSource_spec
    (fun k => if k = "DB_HOST" then some "db.internal" else
      if k = "DB_PORT" then some "6543" else none)
    Atoi "" 0 "" "" "").2.2.2.2.2.2.2.2.2.2.1 rfl 6543 (by decide) (by decide) (by decide)

/-- C9: `IsTokenExpired` returns false for a credential without `Expiry`; for a credential
with `Expiry` it returns true exactly when the current time is strictly after the expiry, so
not at the expiry instant itself, and not for a credential the dynamic source has just issued
at the current time. -/
theorem IsTokenExpired_spec (d : DynamicRDSSource) (w : World) (cred : Credential) :
    (cred.Expiry = none → d.IsTokenExpired w cred = false) ∧
    (∀ expiry, cred.Expiry = some expiry →
      (d.IsTokenExpired w cred = true ↔ expiry < w.Now)) ∧
    (cred.Expiry = some w.Now → d.IsTokenExpired w cred = false) ∧
    (∀ (d1 : DynamicRDSSource) (ctx : Context),
      d1.GetCredentials ctx w = (some cred, none) → d.IsTokenExpired w cred = false) := by
  refine ⟨?_, ?_, ?_, ?_⟩
  · intro h
    simp [DynamicRDSSource.IsTokenExpired, h]
  · intro expiry h
    simp [DynamicRDSSource.IsTokenExpired, h]
  · intro h
    simp [DynamicRDSSource.IsTokenExpired, h]
  · intro d1 ctx h
    obtain ⟨_, _, _, hexp⟩ := dynamic_success_inv d1 ctx w cred h
    simp only [DynamicRDSSource.IsTokenExpired, hexp, decide_eq_false_iff_not, not_lt]
    exact le_of_lt (lt_add_of_pos_right _ fifteen_minutes_pos)

/-- Witness of C9: a credential expiring at instant 100, checked at instants 100 and 101. -/
theorem IsTokenExpired_spec_witness :
    (sampleDynamic.IsTokenExpired { onlineWorld with Now := 101 }
      { Key := "k", Value := "v", Expiry := some 100, Metadata := [] } = true ↔
      (100 : Int) < ({ onlineWorld with Now := 101 } : World).Now) ∧
    (sampleDynamic.IsTokenExpired { onlineWorld with Now := 100 }
      { Key := "k", Value := "v", Expiry := some 100, Metadata := [] } = false) :=
  ⟨(IsTokenExpired_spec sampleDynamic { onlineWorld with Now := 101 }
      { Key := "k", Value := "v", Expiry := some 100, Metadata := [] }).2.1 100 rfl,
   (IsTokenExpired_spec sampleDynamic { onlineWorld with Now := 100 }
      { Key := "k", Value := "v", Expiry := some 100, Metadata := [] }).2.2.1 rfl⟩

end Credmanager
